import Mathlib

/-
Verification of the tune_control command-line tool
(src/systemcmds/tune_control/tune_control.cpp).

The file shallowly embeds `tune_control_main`: the option-processing loop
(px4_getopt over "f:d:t:m:s:"), the `play` string-input loop driven by the
melody compiler, the `play` predefined-id branch, and the `stop` branch.
Machine integers are modelled as Nat (for C unsigned locals) and Int (for the
`strtol` results), with explicit reductions mod 2^8 / 2^16 / 2^32 at every
C cast.  Publishing to the uORB sink and `usleep` delays are modelled as a
trace of actions produced by one invocation.

The `Tunes` melody-compiler library (lib/tunes) is not part of the sources;
where its behaviour matters it is modelled from the spec as abstract
parameters (see the doc comments marked "Modelled from the spec").
-/

namespace TuneCtl

/-- Value of a C `long` cast to `uint8_t` and read back into an `unsigned int`
local: reduction mod 2^8 (`Int.emod` is non-negative for a positive modulus). -/
def u8 (v : Int) : Nat := (v % 256).toNat

/-- Value of a C `long` cast to `uint16_t` and read back into an `unsigned int`
local: reduction mod 2^16. -/
def u16 (v : Int) : Nat := (v % 65536).toNat

/-- Value of a C `long` cast to `uint32_t`: reduction mod 2^32. -/
def u32 (v : Int) : Nat := (v % 4294967296).toNat

/-- 2^32, the modulus of C `unsigned int` / `uint32_t` arithmetic. -/
def U32 : Nat := 4294967296

/-- The fields of the published uORB `tune_control_s` message that the tool
writes (the timestamp, set inside `publish_tune_control` from the clock, is
not modelled: no claim concerns it). -/
structure tune_control_s where
  tune_id : Nat
  frequency : Nat
  duration : Nat
  silence : Nat
  strength : Nat
  tune_override : Bool
  deriving DecidableEq, Repr

/-- Modelled from the spec: `tune_control_s::STRENGTH_NORMAL` is declared in
the uORB topic header, which is not among the sources; the spec fixes the
default strength at 40. -/
def STRENGTH_NORMAL : Nat := 40

/-- `#define MAX_NOTE_ITERATION 50` (tune_control.cpp line 54). -/
def MAX_NOTE_ITERATION : Nat := 50

/-- The initial `tune_control` struct of `tune_control_main`: zero-initialised
(`= {}`), then `tune_id = 0` and `strength = STRENGTH_NORMAL`. -/
def initCtl : tune_control_s :=
  { tune_id := 0, frequency := 0, duration := 0, silence := 0,
    strength := STRENGTH_NORMAL, tune_override := false }

/-- The mutable locals of the option-processing loop: the message being built,
the `string_input` flag and the `tune_string` pointer. -/
structure ParseState where
  ctl : tune_control_s
  string_input : Bool
  tune_string : String
  deriving DecidableEq, Repr

/-- Locals before the getopt loop: `string_input = false`, no tune string. -/
def initState : ParseState :=
  { ctl := initCtl, string_input := false, tune_string := "" }

/-- One parsed command-line option with its `strtol`-parsed numeric value
(a C `long`, hence `Int`) or its raw string argument. -/
inductive Arg where
  | f (v : Int)
  | d (v : Int)
  | t (v : Int)
  | m (s : String)
  | s (v : Int)
  deriving DecidableEq, Repr

/-- The C check `tune_string[0] != 'M'`, negated: true when the first character
exists and is `'M'` (an empty C string has `'\0'` at index 0, which is not
`'M'`). -/
def startsWithM (s : String) : Bool :=
  match s.data with
  | c :: _ => c == 'M'
  | [] => false

/-- One iteration of the getopt switch (tune_control.cpp lines 126-187).
An `Except.error` is the early `usage(); return 1` path. -/
def processArg (tunesSize : Nat) (st : ParseState) : Arg → Except Int ParseState
  | .f v =>
    let value := u16 v
    if 0 < value ∧ value < 22000 then
      .ok { st with ctl := { st.ctl with frequency := value } }
    else
      .error 1
  | .d v =>
    .ok { st with ctl := { st.ctl with duration := u32 v } }
  | .t v =>
    let value := u8 v
    if 0 < value ∧ value < tunesSize then
      .ok { st with ctl := { st.ctl with tune_id := value } }
    else
      .error 1
  | .m str =>
    if startsWithM str then
      .ok { st with string_input := true, tune_string := str }
    else
      .error 1
  | .s v =>
    let value := u8 v
    if 0 < value ∧ value < 100 then
      .ok { st with ctl := { st.ctl with strength := value } }
    else
      .ok { st with ctl := { st.ctl with strength := STRENGTH_NORMAL } }

/-- The whole getopt loop over the supplied options, in order; the first
rejected option aborts the command with its return code.  `tunesSize` is
`tunes.get_default_tunes_size()`, a value of the external `Tunes` library. -/
def processArgs (tunesSize : Nat) (args : List Arg) : Except Int ParseState :=
  args.foldlM (processArg tunesSize) initState

/-- Modelled from the spec: one decoded note of the melody compiler.  The
`Tunes` library (lib/tunes) is not among the sources; per the spec,
`compile_notation` yields an ordered finite sequence of note events, which
`get_next_tune` hands out one at a time through C `unsigned` out-parameters
(`frequency`, `duration`, `silence`) and a `uint8_t` (`strength`). -/
structure NoteEvent where
  frequency : Nat
  duration : Nat
  silence : Nat
  strength : Nat
  deriving DecidableEq, Repr

/-- One observable action of an invocation: a publish of a `tune_control`
message to the uORB sink, or a `usleep` of the given number of microseconds. -/
inductive Action where
  | publish (e : tune_control_s)
  | sleep (us : Nat)
  deriving DecidableEq, Repr

/-- The message published for one note on the string-input play path
(tune_control.cpp lines 204-208): `tune_id = 0`, frequency cast to
`uint16_t`, duration and silence through `uint32_t`, strength through
`uint8_t`. -/
def noteToControl (e : NoteEvent) : tune_control_s :=
  { tune_id := 0,
    frequency := e.frequency % U32 % 65536,
    duration := e.duration % U32,
    silence := e.silence % U32,
    strength := e.strength % 256,
    tune_override := false }

/-- The string-input playback loop (tune_control.cpp lines 203-217): for each
note, publish the message, `usleep(duration + silence)` (unsigned 32-bit
arithmetic), increment `exit_counter`, and break once it exceeds
`MAX_NOTE_ITERATION`.  `counter` is the current value of `exit_counter`. -/
def playLoop : List NoteEvent → Nat → List Action
  | [], _ => []
  | e :: rest, counter =>
    Action.publish (noteToControl e) ::
    Action.sleep ((e.duration % U32 + e.silence % U32) % U32) ::
    (if counter + 1 > MAX_NOTE_ITERATION then [] else playLoop rest (counter + 1))

/-- The command verb following the options.  The `libtest` branch publishes
nothing (it only prints) and no claim concerns it, so it is not modelled;
an unrecognized verb only reprints usage. -/
inductive Command where
  | play
  | stop
  deriving DecidableEq, Repr

/-- Shallow embedding of `tune_control_main` (tune_control.cpp lines 112-267)
for the `play` and `stop` verbs, returning the process exit code and the
trace of publishes and sleeps.  `maxUpdate` is
`tunes.get_maximum_update_interval()` and `compile` is the melody compiler
(`tunes.set_string` followed by draining `get_next_tune`), both modelled from
the spec as parameters since the `Tunes` library is not among the sources;
`compile` receives the tune string and the strength passed to `set_string`. -/
def tune_control_main (tunesSize maxUpdate : Nat)
    (compile : String → Nat → List NoteEvent)
    (args : List Arg) (cmd : Command) : Int × List Action :=
  match processArgs tunesSize args with
  | .error code => (code, [])
  | .ok st =>
    match cmd with
    | .play =>
      if st.string_input then
        (0, playLoop (compile st.tune_string st.ctl.strength) 0)
      else
        (0, [Action.publish { st.ctl with
               tune_id := if st.ctl.tune_id = 0 then 1 else st.ctl.tune_id }])
    | .stop =>
      (0, [Action.publish { st.ctl with
             tune_id := 0, frequency := 0, duration := 0, silence := 0,
             tune_override := true },
           Action.sleep maxUpdate])

/-- The messages published by a trace, in order. -/
def publishedEvents : List Action → List tune_control_s
  | [] => []
  | Action.publish e :: rest => e :: publishedEvents rest
  | Action.sleep _ :: rest => publishedEvents rest

/-- Number of publishes in a trace. -/
def countPublishes (tr : List Action) : Nat := (publishedEvents tr).length

/-- Number of sleeps in a trace. -/
def countSleeps : List Action → Nat
  | [] => 0
  | Action.sleep _ :: rest => countSleeps rest + 1
  | Action.publish _ :: rest => countSleeps rest

/-- A trace is well paced when it is a sequence of publish/sleep pairs in
which each sleep lasts exactly the published message's duration plus its
silence: no two publishes without the intervening sleep. -/
def wellPaced : List Action → Bool
  | [] => true
  | Action.publish e :: Action.sleep t :: rest =>
    (t == e.duration + e.silence) && wellPaced rest
  | _ => false

/-- No `-m` option among the arguments. -/
def noMelodyArg (args : List Arg) : Bool :=
  args.all fun a => match a with | .m _ => false | _ => true

/-- No `-t` option among the arguments. -/
def noTuneArg (args : List Arg) : Bool :=
  args.all fun a => match a with | .t _ => false | _ => true

/-- No `-s` option among the arguments. -/
def noStrengthArg (args : List Arg) : Bool :=
  args.all fun a => match a with | .s _ => false | _ => true

/-- A melody compiler producing no notes, used to instantiate theorems at
concrete inputs. -/
def noCompile : String → Nat → List NoteEvent := fun _ _ => []

/-- A melody compiler producing 51 identical notes, used to instantiate
theorems at concrete inputs. -/
def compile51 : String → Nat → List NoteEvent :=
  fun _ _ => List.replicate 51 { frequency := 100, duration := 1, silence := 1, strength := 40 }

end TuneCtl

deriving instance DecidableEq for Except

namespace TuneCtl

/-! Helper lemmas about the `Except` monad and the option-processing fold. -/

theorem ok_bind {α β : Type} (a : α) (f : α → Except Int β) :
    (Except.ok a >>= f) = f a := rfl

theorem error_bind {α β : Type} (e : Int) (f : α → Except Int β) :
    ((Except.error e : Except Int α) >>= f) = Except.error e := rfl

/-- Each getopt case other than `-m` leaves `string_input` and `tune_string`
unchanged; each case other than `-t` leaves `tune_id` unchanged; each case
other than `-s` leaves `strength` unchanged. -/
theorem processArg_fields {size : Nat} {st st' : ParseState} {a : Arg}
    (h : processArg size st a = Except.ok st') :
    ((∀ s, a ≠ Arg.m s) →
      st'.string_input = st.string_input ∧ st'.tune_string = st.tune_string) ∧
    ((∀ v, a ≠ Arg.t v) → st'.ctl.tune_id = st.ctl.tune_id) ∧
    ((∀ v, a ≠ Arg.s v) → st'.ctl.strength = st.ctl.strength) := by
  cases a with
  | f v =>
    simp only [processArg] at h
    split at h
    · injection h with h
      subst h
      simp
    · simp at h
  | d v =>
    simp only [processArg] at h
    injection h with h
    subst h
    simp
  | t v =>
    simp only [processArg] at h
    split at h
    · injection h with h
      subst h
      simp
    · simp at h
  | m s =>
    simp only [processArg] at h
    split at h
    · injection h with h
      subst h
      simp
    · simp at h
  | s v =>
    simp only [processArg] at h
    split at h
    · injection h with h
      subst h
      simp
    · injection h with h
      subst h
      simp

/-- Over a whole successful option fold: absence of `-m` (resp. `-t`, `-s`)
options preserves `string_input`/`tune_string` (resp. `tune_id`,
`strength`). -/
theorem foldlM_fields {size : Nat} : ∀ {args : List Arg} {st st' : ParseState},
    List.foldlM (processArg size) st args = Except.ok st' →
    (noMelodyArg args = true →
      st'.string_input = st.string_input ∧ st'.tune_string = st.tune_string) ∧
    (noTuneArg args = true → st'.ctl.tune_id = st.ctl.tune_id) ∧
    (noStrengthArg args = true → st'.ctl.strength = st.ctl.strength) := by
  intro args
  induction args with
  | nil =>
    intro st st' h
    simp only [List.foldlM_nil] at h
    injection h with h
    subst h
    simp
  | cons a rest ih =>
    intro st st' h
    rw [List.foldlM_cons] at h
    cases ha : processArg size st a with
    | error e => rw [ha, error_bind] at h; simp at h
    | ok st₁ =>
      rw [ha, ok_bind] at h
      have hstep := processArg_fields ha
      have hrest := ih h
      refine ⟨?_, ?_, ?_⟩
      · intro hno
        simp only [noMelodyArg, List.all_cons, Bool.and_eq_true] at hno
        have h1 : ∀ s, a ≠ Arg.m s := by
          intro s hs
          subst hs
          simp at hno
        have h2 := hstep.1 h1
        have h3 := hrest.1 (by simpa [noMelodyArg] using hno.2)
        exact ⟨h3.1.trans h2.1, h3.2.trans h2.2⟩
      · intro hno
        simp only [noTuneArg, List.all_cons, Bool.and_eq_true] at hno
        have h1 : ∀ v, a ≠ Arg.t v := by
          intro v hv
          subst hv
          simp at hno
        have h2 := hstep.2.1 h1
        have h3 := (ih h).2.1 (by simpa [noTuneArg] using hno.2)
        exact h3.trans h2
      · intro hno
        simp only [noStrengthArg, List.all_cons, Bool.and_eq_true] at hno
        have h1 : ∀ v, a ≠ Arg.s v := by
          intro v hv
          subst hv
          simp at hno
        have h2 := hstep.2.2 h1
        have h3 := (ih h).2.2 (by simpa [noStrengthArg] using hno.2)
        exact h3.trans h2

/-- A successful option fold whose last option is `-m s` leaves the state with
`string_input` set and `tune_string = s`, and does not touch the message
fields beyond what the earlier options did. -/
theorem processArgs_append_m {size : Nat} {pre : List Arg} {s : String}
    {st : ParseState} (h : processArgs size (pre ++ [Arg.m s]) = Except.ok st) :
    st.string_input = true ∧ st.tune_string = s ∧
    ∃ st₁, processArgs size pre = Except.ok st₁ ∧ st.ctl = st₁.ctl := by
  unfold processArgs at h ⊢
  rw [List.foldlM_append] at h
  cases h₁ : List.foldlM (processArg size) initState pre with
  | error e => rw [h₁, error_bind] at h; simp at h
  | ok st₁ =>
    rw [h₁, ok_bind, List.foldlM_cons] at h
    cases h₂ : processArg size st₁ (Arg.m s) with
    | error e => rw [h₂, error_bind] at h; simp at h
    | ok st₂ =>
      rw [h₂, ok_bind, List.foldlM_nil] at h
      injection h with h
      subst h
      simp only [processArg] at h₂
      split at h₂
      · injection h₂ with h₂
        subst h₂
        exact ⟨rfl, rfl, st₁, rfl, rfl⟩
      · simp at h₂

/-- A successful option fold whose last option is `-t v` leaves the state with
`tune_id = v mod 256`, which the acceptance test placed in `(0, size)`;
`string_input` is whatever the earlier options made it. -/
theorem processArgs_append_t {size : Nat} {pre : List Arg} {v : Int}
    {st : ParseState} (h : processArgs size (pre ++ [Arg.t v]) = Except.ok st) :
    st.ctl.tune_id = u8 v ∧ 0 < u8 v ∧ u8 v < size ∧
    ∃ st₁, processArgs size pre = Except.ok st₁ ∧
      st.string_input = st₁.string_input := by
  unfold processArgs at h ⊢
  rw [List.foldlM_append] at h
  cases h₁ : List.foldlM (processArg size) initState pre with
  | error e => rw [h₁, error_bind] at h; simp at h
  | ok st₁ =>
    rw [h₁, ok_bind, List.foldlM_cons] at h
    cases h₂ : processArg size st₁ (Arg.t v) with
    | error e => rw [h₂, error_bind] at h; simp at h
    | ok st₂ =>
      rw [h₂, ok_bind, List.foldlM_nil] at h
      injection h with h
      subst h
      simp only [processArg] at h₂
      split at h₂
      · rename_i hrange
        injection h₂ with h₂
        subst h₂
        exact ⟨rfl, hrange.1, hrange.2, st₁, rfl, rfl⟩
      · simp at h₂

/-! Helper lemmas about the string-input playback loop. -/

/-- The loop started at counter `c ≤ 50` publishes exactly the first
`51 - c` notes, converted to messages, in sequence order. -/
theorem playLoop_published : ∀ (seq : List NoteEvent) (c : Nat),
    c ≤ MAX_NOTE_ITERATION →
    publishedEvents (playLoop seq c)
      = (seq.take (MAX_NOTE_ITERATION + 1 - c)).map noteToControl := by
  intro seq
  induction seq with
  | nil => intro c _; simp [playLoop, publishedEvents]
  | cons e rest ih =>
    intro c hc
    simp only [playLoop, publishedEvents]
    by_cases h50 : c + 1 > MAX_NOTE_ITERATION
    · rw [if_pos h50]
      have hce : c = MAX_NOTE_ITERATION := by omega
      subst hce
      simp [publishedEvents, MAX_NOTE_ITERATION]
    · rw [if_neg h50]
      rw [ih (c + 1) (by omega)]
      have hsplit : MAX_NOTE_ITERATION + 1 - c
          = (MAX_NOTE_ITERATION + 1 - (c + 1)) + 1 := by
        simp only [MAX_NOTE_ITERATION] at *
        omega
      rw [hsplit, List.take_succ_cons, List.map_cons]

/-- The loop started at counter `c ≤ 50` sleeps exactly once after every
publish, for the published message's `duration + silence`, provided each
note's `duration + silence` fits in 32 bits (as the real compiler's
microsecond values do). -/
theorem playLoop_wellPaced : ∀ (seq : List NoteEvent) (c : Nat),
    (∀ e ∈ seq, e.duration + e.silence < U32) →
    wellPaced (playLoop seq c) = true := by
  intro seq
  induction seq with
  | nil => intro c _; simp [playLoop, wellPaced]
  | cons e rest ih =>
    intro c hwf
    have hd : e.duration + e.silence < U32 := hwf e (by simp)
    have hdu : e.duration % U32 = e.duration := Nat.mod_eq_of_lt (by omega)
    have hsi : e.silence % U32 = e.silence := Nat.mod_eq_of_lt (by omega)
    simp only [playLoop, wellPaced, Bool.and_eq_true, beq_iff_eq]
    constructor
    · rw [hdu, hsi, Nat.mod_eq_of_lt hd]
      simp [noteToControl, hdu, hsi]
    · split
      · simp [wellPaced]
      · exact ih _ (fun x hx => hwf x (by simp [hx]))

/-! Helper lemmas unfolding `tune_control_main` for each verb. -/

/-- The `play` verb with `string_input` set runs the playback loop on the
compiled melody. -/
theorem main_play_string {size maxU : Nat}
    {compile : String → Nat → List NoteEvent} {args : List Arg}
    {st : ParseState} (cmdh : processArgs size args = Except.ok st)
    (hs : st.string_input = true) :
    tune_control_main size maxU compile args Command.play
      = (0, playLoop (compile st.tune_string st.ctl.strength) 0) := by
  unfold tune_control_main
  rw [cmdh]
  simp [hs]

/-- The `play` verb without `string_input` publishes one message carrying the
(defaulted) tune id and nothing else. -/
theorem main_play_id {size maxU : Nat}
    {compile : String → Nat → List NoteEvent} {args : List Arg}
    {st : ParseState} (cmdh : processArgs size args = Except.ok st)
    (hs : st.string_input = false) :
    tune_control_main size maxU compile args Command.play
      = (0, [Action.publish { st.ctl with
          tune_id := if st.ctl.tune_id = 0 then 1 else st.ctl.tune_id }]) := by
  unfold tune_control_main
  rw [cmdh]
  simp [hs]

/-- The `stop` verb publishes one message with zeroed tune id, frequency,
duration and silence, the strength left as parsed, and the override flag set,
then sleeps for `maxUpdate`. -/
theorem main_stop {size maxU : Nat}
    {compile : String → Nat → List NoteEvent} {args : List Arg}
    {st : ParseState} (cmdh : processArgs size args = Except.ok st) :
    tune_control_main size maxU compile args Command.stop
      = (0, [Action.publish
              { tune_id := 0, frequency := 0, duration := 0, silence := 0,
                strength := st.ctl.strength, tune_override := true },
             Action.sleep maxU]) := by
  unfold tune_control_main
  rw [cmdh]

/-! The claims. -/

/-- C3, as amended: a `-f` frequency argument is accepted, with
`f mod 2^16` stored in the event's frequency field, exactly when
`0 < f mod 2^16 < 22000`; otherwise the command fails with a usage error
(return code 1) before anything is published (empty trace). -/
theorem c3_freq_amended (v : Int) (size maxU : Nat)
    (compile : String → Nat → List NoteEvent) (cmd : Command) (rest : List Arg) :
    (0 < u16 v ∧ u16 v < 22000 →
      processArgs size [Arg.f v]
        = Except.ok ⟨{ initCtl with frequency := u16 v }, false, ""⟩) ∧
    (¬(0 < u16 v ∧ u16 v < 22000) →
      tune_control_main size maxU compile (Arg.f v :: rest) cmd = (1, [])) := by
  constructor
  · intro hacc
    unfold processArgs
    rw [List.foldlM_cons]
    simp only [processArg]
    rw [if_pos hacc, ok_bind, List.foldlM_nil]
    rfl
  · intro hrej
    unfold tune_control_main processArgs
    rw [List.foldlM_cons]
    simp only [processArg]
    rw [if_neg hrej, error_bind]

/-- C3 counterexample: the argument `-f 65537` is at least 22000, yet the
command accepts it (storing the wrapped frequency 1) instead of failing. -/
theorem c3_freq_counterexample :
    processArgs 21 [Arg.f 65537]
      = Except.ok ⟨{ initCtl with frequency := 1 }, false, ""⟩ ∧
    (22000 : Int) ≤ 65537 := by
  exact ⟨by decide, by decide⟩

/-- C3 witness: `-f 100` is accepted with frequency 100 stored, and
`-f 22000` fails with return code 1 and an empty trace. -/
theorem c3_freq_witness :
    processArgs 21 [Arg.f 100]
      = Except.ok ⟨{ initCtl with frequency := u16 100 }, false, ""⟩ ∧
    tune_control_main 21 5 noCompile (Arg.f 22000 :: []) Command.play = (1, []) :=
  ⟨(c3_freq_amended 100 21 5 noCompile Command.play []).1 (by decide),
   (c3_freq_amended 22000 21 5 noCompile Command.play []).2 (by decide)⟩

/-- C10: the `-f` argument is truncated modulo 2^16 before the range check,
so it is accepted exactly when `0 < f mod 65536 < 22000`, with the wrapped
value stored in the event's frequency field; otherwise the option is rejected
with return code 1. -/
theorem c10_freq_wrap (v : Int) (size : Nat) :
    processArgs size [Arg.f v]
      = if 0 < u16 v ∧ u16 v < 22000
        then Except.ok ⟨{ initCtl with frequency := u16 v }, false, ""⟩
        else Except.error 1 := by
  unfold processArgs
  rw [List.foldlM_cons]
  simp only [processArg]
  by_cases hc : 0 < u16 v ∧ u16 v < 22000
  · rw [if_pos hc, if_pos hc, ok_bind, List.foldlM_nil]
    rfl
  · rw [if_neg hc, if_neg hc, error_bind]

/-- C4: a `-m` string whose first character is not `'M'` (including the empty
string) makes the command fail with return code 1 and an empty trace, for
every melody compiler — so neither compilation nor publishing happens. -/
theorem c4_melody_reject (s : String) (size maxU : Nat)
    (compile : String → Nat → List NoteEvent) (cmd : Command) (rest : List Arg)
    (h : s.data.head? ≠ some 'M') :
    tune_control_main size maxU compile (Arg.m s :: rest) cmd = (1, []) := by
  have hM : startsWithM s = false := by
    unfold startsWithM
    cases hd : s.data with
    | nil => rfl
    | cons c tl =>
      rw [hd] at h
      simp only [List.head?_cons, ne_eq, Option.some.injEq] at h
      simp [h]
  unfold tune_control_main processArgs
  rw [List.foldlM_cons]
  simp only [processArg, hM]
  rw [if_neg (by simp), error_bind]

/-- C4 witness: `-m ""` (the empty melody string) fails with return code 1
and an empty trace. -/
theorem c4_melody_reject_witness :
    tune_control_main 21 5 noCompile (Arg.m "" :: []) Command.play = (1, []) :=
  c4_melody_reject "" 21 5 noCompile Command.play [] (by decide)

/-- C5, as amended: a `-t` tune-index argument is truncated modulo 2^8 before
the range check, so it is accepted, with `t mod 256` stored as the tune id,
exactly when `0 < t mod 256 < size`; otherwise the command fails with return
code 1 before anything is published (empty trace). -/
theorem c5_tune_amended (v : Int) (size maxU : Nat)
    (compile : String → Nat → List NoteEvent) (cmd : Command) (rest : List Arg) :
    (0 < u8 v ∧ u8 v < size →
      processArgs size [Arg.t v]
        = Except.ok ⟨{ initCtl with tune_id := u8 v }, false, ""⟩) ∧
    (¬(0 < u8 v ∧ u8 v < size) →
      tune_control_main size maxU compile (Arg.t v :: rest) cmd = (1, [])) := by
  constructor
  · intro hacc
    unfold processArgs
    rw [List.foldlM_cons]
    simp only [processArg]
    rw [if_pos hacc, ok_bind, List.foldlM_nil]
    rfl
  · intro hrej
    unfold tune_control_main processArgs
    rw [List.foldlM_cons]
    simp only [processArg]
    rw [if_neg hrej, error_bind]

/-- C5 counterexample: with a tune table of size 21, the argument `-t 257`
is at least the table size, yet the command accepts it (storing the wrapped
tune id 1) instead of returning an error. -/
theorem c5_tune_counterexample :
    processArgs 21 [Arg.t 257]
      = Except.ok ⟨{ initCtl with tune_id := 1 }, false, ""⟩ ∧
    (21 : Int) ≤ 257 := by
  exact ⟨by decide, by decide⟩

/-- C5 witness: with table size 21, `-t 2` is accepted with tune id 2, and
`-t 0` fails with return code 1 and an empty trace. -/
theorem c5_tune_witness :
    processArgs 21 [Arg.t 2]
      = Except.ok ⟨{ initCtl with tune_id := u8 2 }, false, ""⟩ ∧
    tune_control_main 21 5 noCompile (Arg.t 0 :: []) Command.play = (1, []) :=
  ⟨(c5_tune_amended 2 21 5 noCompile Command.play []).1 (by decide),
   (c5_tune_amended 0 21 5 noCompile Command.play []).2 (by decide)⟩

/-- C6, as amended: the `-s` strength argument is truncated modulo 2^8 before
the range check; the event's strength is `s mod 256` when
`0 < s mod 256 < 100` and the default `STRENGTH_NORMAL = 40` otherwise, and
the option never causes an error (the parse always succeeds). -/
theorem c6_strength_amended (v : Int) (size : Nat) :
    processArgs size [Arg.s v]
      = Except.ok ⟨{ initCtl with strength :=
          (if 0 < u8 v ∧ u8 v < 100 then u8 v else STRENGTH_NORMAL) }, false, ""⟩ := by
  unfold processArgs
  rw [List.foldlM_cons]
  simp only [processArg]
  by_cases hc : 0 < u8 v ∧ u8 v < 100
  · rw [if_pos hc, if_pos hc, ok_bind, List.foldlM_nil]
    rfl
  · rw [if_neg hc, if_neg hc, ok_bind, List.foldlM_nil]
    rfl

/-- C6 counterexample: the argument `-s 257` lies outside the open interval
(0, 100), yet the stored strength is the wrapped value 1, not the default
40. -/
theorem c6_strength_counterexample :
    processArgs 21 [Arg.s 257]
      = Except.ok ⟨{ initCtl with strength := 1 }, false, ""⟩ ∧
    ¬((0 : Int) < 257 ∧ (257 : Int) < 100) ∧ (1 : Nat) ≠ STRENGTH_NORMAL := by
  exact ⟨by decide, by decide, by decide⟩

/-- C1, as amended: one invocation of the string-input play path publishes
exactly `min(len(sequence), 51)` events — at most `MAX_NOTE_ITERATION + 1`,
because the counter check follows the increment after each publish — and
the command returns 0 (silent truncation, no error). -/
theorem c1_play_bound (size maxU : Nat) (compile : String → Nat → List NoteEvent)
    (pre : List Arg) (s : String) (st : ParseState)
    (h : processArgs size (pre ++ [Arg.m s]) = Except.ok st) :
    (tune_control_main size maxU compile (pre ++ [Arg.m s]) Command.play).1 = 0 ∧
    countPublishes
        (tune_control_main size maxU compile (pre ++ [Arg.m s]) Command.play).2
      = min (compile s st.ctl.strength).length (MAX_NOTE_ITERATION + 1) := by
  obtain ⟨hsi, hts, -⟩ := processArgs_append_m h
  rw [main_play_string h hsi, hts]
  refine ⟨rfl, ?_⟩
  rw [countPublishes, playLoop_published _ 0 (by omega)]
  rw [List.length_map, List.length_take, Nat.sub_zero, Nat.min_comm]

/-- C1 counterexample: a compiled melody of 51 notes yields 51 publishes,
strictly more than `min(len, 50)` = 50. -/
theorem c1_bound_counterexample :
    min (compile51 "M" STRENGTH_NORMAL).length MAX_NOTE_ITERATION
      < countPublishes
          (tune_control_main 21 5 compile51 [Arg.m "M"] Command.play).2 := by
  decide

/-- C1 witness: with the empty compiler, a play of `-m "M"` returns 0 and
publishes `min(0, 51) = 0` events. -/
theorem c1_play_bound_witness :
    (tune_control_main 21 5 noCompile ([] ++ [Arg.m "M"]) Command.play).1 = 0 ∧
    countPublishes
        (tune_control_main 21 5 noCompile ([] ++ [Arg.m "M"]) Command.play).2
      = min (noCompile "M" (ParseState.mk initCtl true "M").ctl.strength).length
          (MAX_NOTE_ITERATION + 1) :=
  c1_play_bound 21 5 noCompile [] "M" ⟨initCtl, true, "M"⟩ (by decide)

/-- C7: on the string-input play path the trace is an alternation of
publish/sleep pairs — after each publish the thread sleeps exactly the
published event's duration plus silence before the next publish — and the
publishes are the compiled notes, converted, in sequence order (up to the
iteration bound); stated for compiled notes whose `duration + silence` fits
the 32-bit `usleep` argument. -/
theorem c7_play_pacing (size maxU : Nat) (compile : String → Nat → List NoteEvent)
    (pre : List Arg) (s : String) (st : ParseState)
    (h : processArgs size (pre ++ [Arg.m s]) = Except.ok st)
    (hwf : ∀ e ∈ compile s st.ctl.strength, e.duration + e.silence < U32) :
    wellPaced
        (tune_control_main size maxU compile (pre ++ [Arg.m s]) Command.play).2
      = true ∧
    publishedEvents
        (tune_control_main size maxU compile (pre ++ [Arg.m s]) Command.play).2
      = ((compile s st.ctl.strength).take (MAX_NOTE_ITERATION + 1)).map
          noteToControl := by
  obtain ⟨hsi, hts, -⟩ := processArgs_append_m h
  rw [main_play_string h hsi, hts]
  refine ⟨playLoop_wellPaced _ 0 hwf, ?_⟩
  rw [playLoop_published _ 0 (by omega), Nat.sub_zero]

/-- C7 witness: with the empty compiler, the play trace of `-m "M"` is well
paced and publishes exactly the (empty) converted note list. -/
theorem c7_play_pacing_witness :
    wellPaced
        (tune_control_main 21 5 noCompile ([] ++ [Arg.m "M"]) Command.play).2
      = true ∧
    publishedEvents
        (tune_control_main 21 5 noCompile ([] ++ [Arg.m "M"]) Command.play).2
      = ((noCompile "M" (ParseState.mk initCtl true "M").ctl.strength).take
          (MAX_NOTE_ITERATION + 1)).map noteToControl :=
  c7_play_pacing 21 5 noCompile [] "M" ⟨initCtl, true, "M"⟩ (by decide)
    (by intro e he; simp [noCompile] at he)

/-- C2, as amended: the stop command publishes exactly one event whose
tune_id, frequency, duration and silence are zero and whose override flag is
set — but whose strength keeps its parsed value, which is the default 40
when no `-s` option was given — and then sleeps exactly
`maximum_update_interval()` microseconds before returning 0. -/
theorem c2_stop_amended (size maxU : Nat) (compile : String → Nat → List NoteEvent)
    (args : List Arg) (st : ParseState)
    (h : processArgs size args = Except.ok st) :
    tune_control_main size maxU compile args Command.stop
      = (0, [Action.publish
              { tune_id := 0, frequency := 0, duration := 0, silence := 0,
                strength := st.ctl.strength, tune_override := true },
             Action.sleep maxU]) ∧
    (noStrengthArg args = true → st.ctl.strength = STRENGTH_NORMAL) := by
  refine ⟨main_stop h, ?_⟩
  intro hns
  have hpres : st.ctl.strength = initState.ctl.strength :=
    (foldlM_fields h).2.2 hns
  exact hpres.trans rfl

/-- C2 counterexample: a plain `stop` (no options) publishes a stop event
whose strength field is `STRENGTH_NORMAL = 40`, not zero, refuting the claim
that all numeric fields of the stop event are zero. -/
theorem c2_stop_counterexample :
    tune_control_main 21 5 noCompile [] Command.stop
      = (0, [Action.publish ⟨0, 0, 0, 0, STRENGTH_NORMAL, true⟩,
             Action.sleep 5]) ∧
    STRENGTH_NORMAL ≠ 0 := by
  exact ⟨by decide, by decide⟩

/-- C2 witness: a plain stop with maximum update interval 7 publishes the
zeroed-but-strength event and sleeps 7 microseconds. -/
theorem c2_stop_witness :
    tune_control_main 21 7 noCompile [] Command.stop
      = (0, [Action.publish
              { tune_id := 0, frequency := 0, duration := 0, silence := 0,
                strength := initState.ctl.strength, tune_override := true },
             Action.sleep 7]) ∧
    (noStrengthArg [] = true → initState.ctl.strength = STRENGTH_NORMAL) :=
  c2_stop_amended 21 7 noCompile [] initState (by decide)

/-- C8: on the predefined-id play path (an accepted `-t` and no `-m`),
exactly one control event is published, carrying the tune table index in its
tune_id field and not an expanded sequence, and the trace contains no sleep
at all. -/
theorem c8_predefined_single (size maxU : Nat)
    (compile : String → Nat → List NoteEvent) (pre : List Arg) (v : Int)
    (st : ParseState) (hm : noMelodyArg (pre ++ [Arg.t v]) = true)
    (h : processArgs size (pre ++ [Arg.t v]) = Except.ok st) :
    tune_control_main size maxU compile (pre ++ [Arg.t v]) Command.play
      = (0, [Action.publish st.ctl]) ∧
    st.ctl.tune_id = u8 v ∧
    countPublishes
        (tune_control_main size maxU compile (pre ++ [Arg.t v]) Command.play).2
      = 1 ∧
    countSleeps
        (tune_control_main size maxU compile (pre ++ [Arg.t v]) Command.play).2
      = 0 := by
  obtain ⟨hid, hpos, hlt, st₁, h₁, hsi⟩ := processArgs_append_t h
  have hmpre : noMelodyArg pre = true := by
    simp only [noMelodyArg, List.all_append, Bool.and_eq_true] at hm
    exact hm.1
  have hsi0 : st.string_input = false := by
    rw [hsi, ((foldlM_fields h₁).1 hmpre).1]
    rfl
  have hne : ¬st.ctl.tune_id = 0 := by
    rw [hid]
    omega
  rw [main_play_id h hsi0, if_neg hne]
  exact ⟨rfl, hid, rfl, rfl⟩

/-- C8 witness: `play -t 2` with table size 21 publishes exactly one event
with tune_id 2 and no sleep. -/
theorem c8_predefined_single_witness :
    tune_control_main 21 5 noCompile ([] ++ [Arg.t 2]) Command.play
      = (0, [Action.publish { initCtl with tune_id := 2 }]) ∧
    ({ initCtl with tune_id := 2 } : tune_control_s).tune_id = u8 2 ∧
    countPublishes
        (tune_control_main 21 5 noCompile ([] ++ [Arg.t 2]) Command.play).2 = 1 ∧
    countSleeps
        (tune_control_main 21 5 noCompile ([] ++ [Arg.t 2]) Command.play).2 = 0 :=
  c8_predefined_single 21 5 noCompile [] 2 ⟨{ initCtl with tune_id := 2 }, false, ""⟩
    (by decide) (by decide)

/-- C9: a play with neither `-m` nor `-t` publishes exactly one control event
whose tune_id has defaulted to 1. -/
theorem c9_default_id (size maxU : Nat) (compile : String → Nat → List NoteEvent)
    (args : List Arg) (st : ParseState)
    (hm : noMelodyArg args = true) (ht : noTuneArg args = true)
    (h : processArgs size args = Except.ok st) :
    tune_control_main size maxU compile args Command.play
      = (0, [Action.publish { st.ctl with tune_id := 1 }]) ∧
    countPublishes (tune_control_main size maxU compile args Command.play).2
      = 1 := by
  have hf := foldlM_fields h
  have hsi0 : st.string_input = false := (hf.1 hm).1
  have hid0 : st.ctl.tune_id = 0 := (hf.2.1 ht).trans rfl
  rw [main_play_id h hsi0, if_pos hid0]
  exact ⟨rfl, rfl⟩

/-- C9 witness: a plain `play` with no options publishes exactly one event
with tune_id 1. -/
theorem c9_default_id_witness :
    tune_control_main 21 5 noCompile [] Command.play
      = (0, [Action.publish { initState.ctl with tune_id := 1 }]) ∧
    countPublishes (tune_control_main 21 5 noCompile [] Command.play).2 = 1 :=
  c9_default_id 21 5 noCompile [] initState (by decide) (by decide) (by decide)

end TuneCtl
